import Mathlib

/-!
Shallow embedding of `generate-manifest.py` (manifest generator for
incremental artwork updates).

The script manipulates JSON documents loaded by `json.load` (Python dicts,
lists, strings, ints, bools, None).  We model those values with `JVal`
(JSON numbers restricted to integers; the manifest only ever carries
integer versions).  Python operations that can raise (`.get` on a
non-dict, `f["path"]` on a non-dict or with a missing key, iterating a
non-iterable, `x + 1` on a non-number, unhashable dict keys) are modelled
with `Option`: `none` means the Python code raises an exception.

Filesystem scanning (`get_all_artwork_files`) returns a Python `set` of
relative path strings; we take the scan result as an input `List String`
(a set is a duplicate-free list; theorems that need it carry a `Nodup`
hypothesis).  The persisted file is modelled by `Disk`: absent, present
but unparsable, or parsed to a `JVal`.
-/

namespace ManifestGen

/-- JSON-like values as produced by `json.load`. -/
inductive JVal where
  | null
  | bool (b : Bool)
  | num (n : Int)
  | str (s : String)
  | arr (xs : List JVal)
  | obj (kvs : List (String × JVal))

/-- `BASE_VERSION = 19` from the configuration block. -/
def BASE_VERSION : Int := 19

/-! ### Python dict primitives (string-keyed objects, as loaded from JSON) -/

/-- `d[k]` lookup on a string-keyed dict, `none` when the key is absent. -/
def dictLookup (kvs : List (String × JVal)) (k : String) : Option JVal :=
  (kvs.find? (fun kv => kv.1 == k)).map Prod.snd

/-- Python `d.get(k, dflt)` on a string-keyed dict. -/
def dictGet (kvs : List (String × JVal)) (k : String) (dflt : JVal) : JVal :=
  match dictLookup kvs k with
  | some v => v
  | none => dflt

/-- Python `d[k] = v`: replace the value in place when the key exists
(keeping its position), otherwise append the new entry. -/
def dictSet (kvs : List (String × JVal)) (k : String) (v : JVal) : List (String × JVal) :=
  if kvs.any (fun kv => kv.1 == k) then
    kvs.map (fun kv => if kv.1 == k then (kv.1, v) else kv)
  else kvs ++ [(k, v)]

/-! ### Python dicts keyed by arbitrary (hashable) values

`existing_files = {f["path"]: f["added"] for f in manifest.get("files", [])}`
builds a dict whose keys are whatever `f["path"]` evaluates to. -/

/-- Python `==` between dict-key candidates (hashable values only ever
reach a dict); Python identifies `True` with `1` and `False` with `0`. -/
def keyEq : JVal → JVal → Bool
  | .null, .null => true
  | .bool a, .bool b => a == b
  | .num a, .num b => a == b
  | .str a, .str b => a == b
  | .bool a, .num b => (if a then (1 : Int) else 0) == b
  | .num a, .bool b => a == (if b then (1 : Int) else 0)
  | _, _ => false

/-- Keys that Python can hash (lists and dicts are unhashable). -/
def hashable : JVal → Bool
  | .arr _ => false
  | .obj _ => false
  | _ => true

/-- Lookup in a `JVal`-keyed dict. -/
def dictFind (d : List (JVal × JVal)) (k : JVal) : Option JVal :=
  (d.find? (fun kv => keyEq kv.1 k)).map Prod.snd

/-- `d[k] = v` on a `JVal`-keyed dict: update in place or append. -/
def dictInsertJ (d : List (JVal × JVal)) (k v : JVal) : List (JVal × JVal) :=
  if d.any (fun kv => keyEq kv.1 k) then
    d.map (fun kv => if keyEq kv.1 k then (kv.1, v) else kv)
  else d ++ [(k, v)]

/-- Python `path in existing_files` for a string `path`. -/
def keyMemStr (d : List (JVal × JVal)) (p : String) : Bool :=
  d.any (fun kv => keyEq kv.1 (.str p))

/-! ### Python value-level operations -/

/-- Iterating a Python value: lists yield elements, strings yield their
characters (as 1-character strings), dicts yield their keys; everything
else raises `TypeError`. -/
def pyIter : JVal → Option (List JVal)
  | .arr xs => some xs
  | .str s => some (s.data.map (fun c => .str (String.mk [c])))
  | .obj kvs => some (kvs.map (fun kv => .str kv.1))
  | _ => none

/-- `f[k]` for a string key `k`: only dicts support string subscripts
(`KeyError` when missing, `TypeError` on every other value). -/
def pySubscript : JVal → String → Option JVal
  | .obj kvs, k => dictLookup kvs k
  | _, _ => none

/-- `v + 1`: defined on numbers and on bools (Python bools are ints). -/
def pyAddOne : JVal → Option JVal
  | .num n => some (.num (n + 1))
  | .bool b => some (.num ((if b then 1 else 0) + 1))
  | _ => none

/-! ### String ordering used by `sorted(current_files)`

Python compares strings lexicographically by code point. -/

/-- Lexicographic comparison of character lists by code point. -/
def charsLe : List Char → List Char → Bool
  | [], _ => true
  | _ :: _, [] => false
  | a :: as, b :: bs =>
    if a.toNat < b.toNat then true
    else if b.toNat < a.toNat then false
    else charsLe as bs

/-- Python `<=` on strings. -/
def strLeB (a b : String) : Bool := charsLe a.data b.data

/-- Python `sorted(...)` on a list of strings: a comparison sort by
`strLeB` (stability is immaterial here because the scan is a set). -/
def pySorted (l : List String) : List String :=
  List.insertionSort (fun a b => strLeB a b = true) l

/-! ### The manifest computation (`update_manifest`, `reset_manifest`) -/

/-- The record literal `{"path": path, "added": v}` built in the update
and reset loops. -/
def mkRecord (p : String) (v : JVal) : JVal :=
  .obj [("path", .str p), ("added", v)]

/-- `{f["path"]: f["added"] for f in manifest.get("files", [])}` —
builds the `existing_files` dict, raising (`none`) when a record is not
subscriptable, lacks a key, or has an unhashable path. -/
def buildExisting : List JVal → List (JVal × JVal) → Option (List (JVal × JVal))
  | [], acc => some acc
  | f :: rest, acc =>
    match pySubscript f "path", pySubscript f "added" with
    | some p, some a =>
      if hashable p then buildExisting rest (dictInsertJ acc p a) else none
    | _, _ => none

/-- The rebuild loop of `update_manifest` (lines 96-105): for each path of
the (already sorted) current file list, keep the tracked `added` value
when the path is in `existing_files`, otherwise tag it `new_version`. -/
def buildUpdatedFiles (existing : List (JVal × JVal)) (nv : JVal) : List String → List JVal
  | [] => []
  | p :: rest =>
    (match dictFind existing (.str p) with
     | some a => mkRecord p a
     | none => mkRecord p nv) :: buildUpdatedFiles existing nv rest

/-- `new_files = current_files - existing_paths` (line 88), as the
duplicate-free sublist of the scan whose paths are untracked. -/
def new_files (existing : List (JVal × JVal)) (scan : List String) : List String :=
  scan.filter (fun p => !keyMemStr existing p)

/-- `removed_files = existing_paths - current_files` (line 89): tracked
keys no longer found by the scan. -/
def removed_files (existing : List (JVal × JVal)) (scan : List String) : List JVal :=
  (existing.map Prod.fst).filter (fun k => !scan.any (fun p => keyEq k (.str p)))

/-- Result of `update_manifest`: the document passed to `save_manifest`
plus the returned triple `(len(new_files), len(removed_files), new_version)`. -/
structure UpdateResult where
  doc : JVal
  newCount : Nat
  removedCount : Nat
  newVersion : JVal

/-- `update_manifest(force_bump)`, with the loaded document and the scan
result as explicit inputs.  `none` models a raised exception. -/
def update_manifest (doc : JVal) (scan : List String) (force : Bool) :
    Option UpdateResult :=
  match doc with
  | .obj kvs =>
    let current_version := dictGet kvs "version" (.num BASE_VERSION)
    match pyIter (dictGet kvs "files" (.arr [])) with
    | none => none
    | some fl =>
      match buildExisting fl [] with
      | none => none
      | some existing_files =>
        let new_count := (new_files existing_files scan).length
        let removed_count := (removed_files existing_files scan).length
        let should_bump := force || decide (0 < new_count)
        match (if should_bump then pyAddOne current_version else some current_version) with
        | none => none
        | some new_version =>
          let updated_files :=
            buildUpdatedFiles existing_files new_version (pySorted scan)
          let kvs2 :=
            dictSet (dictSet (dictSet kvs "version" new_version)
              "base_version" (.num BASE_VERSION)) "files" (.arr updated_files)
          some ⟨.obj kvs2, new_count, removed_count, new_version⟩
  | _ => none

/-- `reset_manifest(new_base_version)`: the fresh document written, plus
the returned pair `(len(current_files), new_base_version)`. -/
def reset_manifest (scan : List String) (new_base_version : Int) :
    JVal × Nat × Int :=
  let updated_files := (pySorted scan).map (fun p => mkRecord p (.num new_base_version))
  (.obj [("version", .num new_base_version),
         ("base_version", .num new_base_version),
         ("files", .arr updated_files)],
   scan.length, new_base_version)

/-! ### Persistence and the CLI entry point -/

/-- State of the persisted `manifest.json`: missing, present but not
valid JSON (or unreadable), or parsed to a value. -/
inductive Disk where
  | absent
  | corrupt
  | parsed (v : JVal)

/-- The default document `load_manifest` falls back to. -/
def defaultManifest : JVal :=
  .obj [("version", .num BASE_VERSION),
        ("base_version", .num BASE_VERSION),
        ("files", .arr [])]

/-- `load_manifest()`: return the parsed document as-is, or the default
when the file is absent or fails to load/parse. -/
def load_manifest : Disk → JVal
  | .parsed v => v
  | _ => defaultManifest

/-- Whether writing `newDoc` persists different content than what was on
disk: always a change when the file was absent or unparsable (written
documents serialize to valid JSON), otherwise a change iff the document
differs. -/
def persistedChanged (disk : Disk) (newDoc : JVal) : Prop :=
  match disk with
  | .parsed v => v ≠ newDoc
  | _ => True

/-- `main()`: reset mode writes the fresh manifest and returns 1; normal
mode runs `update_manifest` and returns 0 iff nothing was added or
removed and `--force` was not given.  The result is the written document
paired with the process exit code (`none` models a raised exception). -/
def main (disk : Disk) (scan : List String) (force : Bool) (reset : Option Int) :
    Option (JVal × Int) :=
  match reset with
  | some n => some ((reset_manifest scan n).1, 1)
  | none =>
    match update_manifest (load_manifest disk) scan force with
    | none => none
    | some res =>
      some (res.doc,
        if res.newCount = 0 ∧ res.removedCount = 0 ∧ force = false then 0 else 1)

/-! ### Accessors for stating properties of produced documents -/

/-- The integer version the update settles on, given the loaded current
version `cv` (mirrors lines 92-93 at the value level). -/
def newVersionOf (cv : Int) (force : Bool) (existing : List (JVal × JVal))
    (scan : List String) : Int :=
  if force || decide (0 < (new_files existing scan).length) then cv + 1 else cv

/-- The `added` value the rebuild loop gives to path `p`. -/
def addedOf (existing : List (JVal × JVal)) (nv : JVal) (p : String) : JVal :=
  match dictFind existing (.str p) with
  | some a => a
  | none => nv

/-- The entry list of an object document (empty for non-objects). -/
def docObj : JVal → List (String × JVal)
  | .obj kvs => kvs
  | _ => []

/-- The `version` field of a document. -/
def docVersion (doc : JVal) : JVal := dictGet (docObj doc) "version" .null

/-- The `base_version` field of a document. -/
def docBaseVersion (doc : JVal) : JVal := dictGet (docObj doc) "base_version" .null

/-- The record list under the `files` field of a document. -/
def docFiles (doc : JVal) : List JVal :=
  match dictGet (docObj doc) "files" (.arr []) with
  | .arr l => l
  | _ => []

/-- The paths carried by a list of file records. -/
def filesPaths (records : List JVal) : List String :=
  records.filterMap (fun r =>
    match pySubscript r "path" with
    | some (.str s) => some s
    | _ => none)

/-- The document of an update result (`null` when the update raised). -/
def resDocD : Option UpdateResult → JVal
  | some r => r.doc
  | none => .null

/-- The returned version of an update result (`null` when it raised). -/
def resVersionD : Option UpdateResult → JVal
  | some r => r.newVersion
  | none => .null

/-! ### Order lemmas for the string comparison behind `sorted` -/

theorem charsLe_total : ∀ a b : List Char, (charsLe a b || charsLe b a) = true
  | [], _ => by simp [charsLe]
  | _ :: _, [] => by simp [charsLe]
  | a :: as, b :: bs => by
    by_cases h1 : a.toNat < b.toNat
    · simp [charsLe, h1]
    · by_cases h2 : b.toNat < a.toNat
      · simp [charsLe, h1, h2]
      · simpa [charsLe, h1, h2] using charsLe_total as bs

theorem charsLe_trans : ∀ a b c : List Char,
    charsLe a b = true → charsLe b c = true → charsLe a c = true
  | [], _, _, _, _ => by simp [charsLe]
  | _ :: _, [], _, h1, _ => by simp [charsLe] at h1
  | _ :: _, _ :: _, [], _, h2 => by simp [charsLe] at h2
  | a :: as, b :: bs, c :: cs, h1, h2 => by
    simp only [charsLe] at h1 h2 ⊢
    by_cases hab : a.toNat < b.toNat
    · by_cases hbc : b.toNat < c.toNat
      · have : a.toNat < c.toNat := by omega
        simp [this]
      · by_cases hcb : c.toNat < b.toNat
        · simp [hbc, hcb] at h2
        · have : a.toNat < c.toNat := by omega
          simp [this]
    · by_cases hba : b.toNat < a.toNat
      · simp [hab, hba] at h1
      · by_cases hbc : b.toNat < c.toNat
        · have : a.toNat < c.toNat := by omega
          simp [this]
        · by_cases hcb : c.toNat < b.toNat
          · simp [hbc, hcb] at h2
          · have hac1 : ¬ a.toNat < c.toNat := by omega
            have hac2 : ¬ c.toNat < a.toNat := by omega
            simp only [hab, hba, if_false, if_neg hab, if_neg hba] at h1
            simp only [if_neg hbc, if_neg hcb] at h2
            simp only [if_neg hac1, if_neg hac2]
            exact charsLe_trans as bs cs h1 h2

theorem strLeB_total (a b : String) : (strLeB a b || strLeB b a) = true :=
  charsLe_total a.data b.data

theorem strLeB_trans (a b c : String) (h1 : strLeB a b = true) (h2 : strLeB b c = true) :
    strLeB a c = true :=
  charsLe_trans a.data b.data c.data h1 h2

theorem pySorted_perm (l : List String) : (pySorted l).Perm l :=
  List.perm_insertionSort _ l

theorem pySorted_pairwise (l : List String) :
    List.Pairwise (fun a b => strLeB a b = true) (pySorted l) := by
  letI : IsTotal String (fun a b => strLeB a b = true) :=
    ⟨fun a b => (Bool.or_eq_true (strLeB a b) (strLeB b a)) ▸ strLeB_total a b⟩
  letI : IsTrans String (fun a b => strLeB a b = true) :=
    ⟨fun a b c => strLeB_trans a b c⟩
  exact List.sorted_insertionSort _ l

theorem pySorted_nodup (l : List String) (h : l.Nodup) : (pySorted l).Nodup :=
  (pySorted_perm l).symm.nodup h

theorem mem_pySorted (l : List String) (p : String) : p ∈ pySorted l ↔ p ∈ l :=
  (pySorted_perm l).mem_iff

/-! ### Dict lemmas -/

theorem find?_dictSet_map (kvs : List (String × JVal)) (k : String) (v : JVal) :
    (kvs.map (fun kv => if kv.1 == k then (kv.1, v) else kv)).find? (fun kv => kv.1 == k)
      = (kvs.find? (fun kv => kv.1 == k)).map (fun kv => (kv.1, v)) := by
  induction kvs with
  | nil => rfl
  | cons hd tl ih =>
    rw [List.map_cons]
    by_cases hh : (hd.1 == k) = true
    · rw [if_pos hh,
        List.find?_cons_of_pos (p := fun kv : String × JVal => kv.1 == k) _
          (show (((hd.1, v) : String × JVal).1 == k) = true from hh),
        List.find?_cons_of_pos (p := fun kv : String × JVal => kv.1 == k) _ hh]
      rfl
    · rw [if_neg hh, List.find?_cons_of_neg (p := fun kv : String × JVal => kv.1 == k) _ hh,
        List.find?_cons_of_neg (p := fun kv : String × JVal => kv.1 == k) _ hh]
      exact ih

theorem dictLookup_dictSet_self (kvs : List (String × JVal)) (k : String) (v : JVal) :
    dictLookup (dictSet kvs k v) k = some v := by
  unfold dictSet
  by_cases hany : (kvs.any (fun kv => kv.1 == k)) = true
  · rw [if_pos hany]
    unfold dictLookup
    rw [find?_dictSet_map]
    obtain ⟨kv₁, hkv₁, hpred⟩ := List.any_eq_true.mp hany
    cases hfd : kvs.find? (fun kv => kv.1 == k) with
    | none =>
      exact absurd hpred (by simpa using List.find?_eq_none.mp hfd kv₁ hkv₁)
    | some kv₂ => simp
  · rw [if_neg hany]
    unfold dictLookup
    rw [List.find?_append]
    have hnone : kvs.find? (fun kv => kv.1 == k) = none := by
      rw [List.find?_eq_none]
      intro kv hkv
      intro hcontra
      exact hany (List.any_eq_true.mpr ⟨kv, hkv, hcontra⟩)
    simp [hnone, List.find?_cons]

theorem dictLookup_dictSet_ne (kvs : List (String × JVal)) (k k' : String) (v : JVal)
    (h : k' ≠ k) : dictLookup (dictSet kvs k v) k' = dictLookup kvs k' := by
  unfold dictSet
  by_cases hany : (kvs.any (fun kv => kv.1 == k)) = true
  · rw [if_pos hany]
    unfold dictLookup
    clear hany
    induction kvs with
    | nil => rfl
    | cons hd tl ih =>
      rw [List.map_cons]
      by_cases hh : (hd.1 == k) = true
      · have hdk : hd.1 = k := beq_iff_eq.mp hh
        have hne : ¬ (hd.1 == k') = true := by
          intro hc
          exact h ((beq_iff_eq.mp hc).symm.trans hdk)
        rw [if_pos hh,
          List.find?_cons_of_neg (p := fun kv : String × JVal => kv.1 == k') _
            (show ¬ (((hd.1, v) : String × JVal).1 == k') = true from hne),
          List.find?_cons_of_neg (p := fun kv : String × JVal => kv.1 == k') _ hne]
        exact ih
      · rw [if_neg hh]
        by_cases hh' : (hd.1 == k') = true
        · rw [List.find?_cons_of_pos (p := fun kv : String × JVal => kv.1 == k') _ hh',
            List.find?_cons_of_pos (p := fun kv : String × JVal => kv.1 == k') _ hh']
        · rw [List.find?_cons_of_neg (p := fun kv : String × JVal => kv.1 == k') _ hh',
            List.find?_cons_of_neg (p := fun kv : String × JVal => kv.1 == k') _ hh']
          exact ih
  · rw [if_neg hany]
    unfold dictLookup
    rw [List.find?_append]
    have hknone : ([(k, v)].find? (fun kv => kv.1 == k')) = none := by
      rw [List.find?_cons_of_neg (p := fun kv : String × JVal => kv.1 == k') _
        (show ¬ (((k, v) : String × JVal).1 == k') = true by
          intro hc
          exact h (beq_iff_eq.mp hc).symm)]
      rfl
    rw [hknone, Option.or_none]

theorem dictGet_dictSet_self (kvs : List (String × JVal)) (k : String) (v d : JVal) :
    dictGet (dictSet kvs k v) k d = v := by
  unfold dictGet
  rw [dictLookup_dictSet_self]

theorem dictGet_dictSet_ne (kvs : List (String × JVal)) (k k' : String) (v d : JVal)
    (h : k' ≠ k) : dictGet (dictSet kvs k v) k' d = dictGet kvs k' d := by
  unfold dictGet
  rw [dictLookup_dictSet_ne kvs k k' v h]

theorem keys_nodup_dictSet (kvs : List (String × JVal)) (k : String) (v : JVal)
    (hnd : (kvs.map Prod.fst).Nodup) : ((dictSet kvs k v).map Prod.fst).Nodup := by
  unfold dictSet
  by_cases hany : (kvs.any (fun kv => kv.1 == k)) = true
  · rw [if_pos hany, List.map_map]
    have : (Prod.fst ∘ fun kv : String × JVal => if kv.1 == k then (kv.1, v) else kv)
        = Prod.fst := by
      funext kv
      simp only [Function.comp_apply]
      by_cases hh : (kv.1 == k) = true
      · rw [if_pos hh]
      · rw [if_neg hh]
    rw [this]
    exact hnd
  · rw [if_neg hany, List.map_append]
    rw [List.nodup_append]
    refine ⟨hnd, List.nodup_singleton k, ?_⟩
    intro x hx hx'
    simp only [List.map_cons, List.map_nil, List.mem_singleton] at hx'
    subst hx'
    obtain ⟨kv, hkv, hfst⟩ := List.mem_map.mp hx
    exact hany (List.any_eq_true.mpr ⟨kv, hkv, beq_iff_eq.mpr hfst⟩)

theorem dictLookup_unique (kvs : List (String × JVal)) (k : String) (v : JVal)
    (hnd : (kvs.map Prod.fst).Nodup) (hl : dictLookup kvs k = some v) :
    ∀ kv ∈ kvs, kv.1 = k → kv.2 = v := by
  induction kvs with
  | nil => intro kv h; simp at h
  | cons hd tl ih =>
    simp only [List.map_cons, List.nodup_cons] at hnd
    intro kv hkv hkey
    by_cases hh : (hd.1 == k) = true
    · have hdk : hd.1 = k := beq_iff_eq.mp hh
      have hv : hd.2 = v := by
        simp only [dictLookup, List.find?_cons, hh, Option.map_some'] at hl
        exact Option.some.inj hl
      rcases List.mem_cons.mp hkv with rfl | hmem
      · exact hv
      · exact absurd (List.mem_map.mpr ⟨kv, hmem, (hkey.trans hdk.symm)⟩) hnd.1
    · rcases List.mem_cons.mp hkv with rfl | hmem
      · exact absurd (beq_iff_eq.mpr hkey) (by simp [hh])
      · have hl' : dictLookup tl k = some v := by
          simpa only [dictLookup, List.find?_cons, hh] using hl
        exact ih hnd.2 hl' kv hmem hkey

theorem dictSet_eq_self (kvs : List (String × JVal)) (k : String) (v : JVal)
    (hnd : (kvs.map Prod.fst).Nodup) (hl : dictLookup kvs k = some v) :
    dictSet kvs k v = kvs := by
  obtain ⟨kv₀, hfind, _⟩ := Option.map_eq_some'.mp hl
  have hany : kvs.any (fun kv => kv.1 == k) = true :=
    List.any_eq_true.mpr ⟨kv₀, List.mem_of_find?_eq_some hfind,
      List.find?_some (p := fun kv : String × JVal => kv.1 == k) hfind⟩
  unfold dictSet
  rw [if_pos hany]
  have : kvs.map (fun kv => if kv.1 == k then (kv.1, v) else kv) = kvs.map id :=
    List.map_congr_left (fun kv hkv => by
      by_cases hh : (kv.1 == k) = true
      · have hv := dictLookup_unique kvs k v hnd hl kv hkv (beq_iff_eq.mp hh)
        simp [hh, ← hv]
      · simp [hh])
  rw [this, List.map_id]

/-! ### Record and rebuild lemmas -/

theorem pySubscript_mkRecord_path (p : String) (v : JVal) :
    pySubscript (mkRecord p v) "path" = some (.str p) := rfl

theorem pySubscript_mkRecord_added (p : String) (v : JVal) :
    pySubscript (mkRecord p v) "added" = some v := rfl

theorem keyEq_str (a b : String) : keyEq (.str a) (.str b) = (a == b) := rfl

theorem buildUpdatedFiles_eq_map (ex : List (JVal × JVal)) (nv : JVal) :
    ∀ l : List String,
      buildUpdatedFiles ex nv l = l.map (fun p => mkRecord p (addedOf ex nv p))
  | [] => rfl
  | p :: rest => by
    simp only [buildUpdatedFiles, List.map_cons, buildUpdatedFiles_eq_map ex nv rest]
    congr 1
    unfold addedOf
    cases dictFind ex (.str p) <;> rfl

theorem filesPaths_cons_mkRecord (p : String) (v : JVal) (rest : List JVal) :
    filesPaths (mkRecord p v :: rest) = p :: filesPaths rest := rfl

theorem filesPaths_map_mkRecord (f : String → JVal) :
    ∀ l : List String, filesPaths (l.map (fun p => mkRecord p (f p))) = l
  | [] => rfl
  | p :: rest => by
    rw [List.map_cons, filesPaths_cons_mkRecord, filesPaths_map_mkRecord f rest]

theorem keyMemStr_map_str (f : String → JVal) :
    ∀ (l : List String) (p : String),
      keyMemStr (l.map (fun q => (JVal.str q, f q))) p = l.any (fun q => q == p)
  | [], _ => rfl
  | q :: rest, p => by
    simp only [List.map_cons, keyMemStr, List.any_cons]
    have ht := keyMemStr_map_str f rest p
    unfold keyMemStr at ht
    rw [ht, keyEq_str]

theorem dictFind_map_str (f : String → JVal) :
    ∀ (l : List String) (p : String), p ∈ l →
      dictFind (l.map (fun q => (JVal.str q, f q))) (.str p) = some (f p)
  | [], p, hp => absurd hp (List.not_mem_nil p)
  | q :: rest, p, hp => by
    by_cases hqp : (q == p) = true
    · have hq : q = p := beq_iff_eq.mp hqp
      subst hq
      unfold dictFind
      rw [List.map_cons,
        List.find?_cons_of_pos (p := fun kv : JVal × JVal => keyEq kv.1 (JVal.str q)) _
          (show keyEq ((JVal.str q, f q) : JVal × JVal).1 (JVal.str q) = true from
            beq_self_eq_true q)]
      rfl
    · have hp' : p ∈ rest := by
        rcases List.mem_cons.mp hp with h | h
        · exact absurd (beq_iff_eq.mpr h.symm) hqp
        · exact h
      unfold dictFind
      rw [List.map_cons,
        List.find?_cons_of_neg (p := fun kv : JVal × JVal => keyEq kv.1 (JVal.str p)) _
          (show ¬ keyEq ((JVal.str q, f q) : JVal × JVal).1 (JVal.str p) = true from hqp)]
      have ht := dictFind_map_str f rest p hp'
      unfold dictFind at ht
      exact ht

theorem buildExisting_records (f : String → JVal) :
    ∀ (l : List String) (acc : List (JVal × JVal)), l.Nodup →
      (∀ p ∈ l, keyMemStr acc p = false) →
      buildExisting (l.map (fun p => mkRecord p (f p))) acc
        = some (acc ++ l.map (fun p => (JVal.str p, f p)))
  | [], acc, _, _ => by simp [buildExisting]
  | p :: rest, acc, hnd, hacc => by
    have hmem : ¬ (acc.any (fun kv => keyEq kv.1 (JVal.str p))) = true := by
      have h := hacc p (List.mem_cons_self p rest)
      unfold keyMemStr at h
      simp [h]
    rw [List.map_cons]
    simp only [buildExisting, pySubscript_mkRecord_path, pySubscript_mkRecord_added]
    rw [if_pos (show hashable (JVal.str p) = true from rfl)]
    unfold dictInsertJ
    rw [if_neg hmem]
    rw [buildExisting_records f rest (acc ++ [(JVal.str p, f p)]) (List.nodup_cons.mp hnd).2
      (by
        intro q hq
        unfold keyMemStr
        rw [List.any_append]
        have h1 : acc.any (fun kv => keyEq kv.1 (JVal.str q)) = false := by
          have h := hacc q (List.mem_cons_of_mem p hq)
          unfold keyMemStr at h
          exact h
        have h2 : (p == q) = false := by
          rw [beq_eq_false_iff_ne]
          intro hc
          exact (List.nodup_cons.mp hnd).1 (hc ▸ hq)
        simp [h1, keyEq_str, h2])]
    simp [List.append_assoc]

/-! ### Evaluation of `update_manifest` on a well-formed object document -/

theorem update_manifest_spec (kvs : List (String × JVal)) (scan : List String)
    (force : Bool) (cv : Int) (fl : List JVal) (ex : List (JVal × JVal))
    (hv : dictGet kvs "version" (.num BASE_VERSION) = .num cv)
    (hf : dictGet kvs "files" (.arr []) = .arr fl)
    (hex : buildExisting fl [] = some ex) :
    update_manifest (.obj kvs) scan force =
      some ⟨.obj (dictSet (dictSet (dictSet kvs "version"
              (.num (newVersionOf cv force ex scan)))
            "base_version" (.num BASE_VERSION)) "files"
            (.arr (buildUpdatedFiles ex (.num (newVersionOf cv force ex scan))
              (pySorted scan)))),
        (new_files ex scan).length, (removed_files ex scan).length,
        .num (newVersionOf cv force ex scan)⟩ := by
  by_cases hb : (force || decide (0 < (new_files ex scan).length)) = true
  · have hnv : newVersionOf cv force ex scan = cv + 1 := by
      unfold newVersionOf
      rw [if_pos hb]
    rw [hnv]
    simp only [update_manifest, hv, hf, pyIter, hex]
    rw [if_pos hb]
    rfl
  · have hnv : newVersionOf cv force ex scan = cv := by
      unfold newVersionOf
      rw [if_neg hb]
    rw [hnv]
    simp only [update_manifest, hv, hf, pyIter, hex]
    rw [if_neg hb]

/-! ### Fields of the document built by `update_manifest` -/

theorem docVersion_produced (kvs : List (String × JVal)) (nvJ b fv : JVal) :
    docVersion (.obj (dictSet (dictSet (dictSet kvs "version" nvJ)
        "base_version" b) "files" fv)) = nvJ := by
  unfold docVersion docObj
  rw [dictGet_dictSet_ne _ _ _ _ _ (by decide),
    dictGet_dictSet_ne _ _ _ _ _ (by decide), dictGet_dictSet_self]

theorem docBaseVersion_produced (kvs : List (String × JVal)) (nvJ b fv : JVal) :
    docBaseVersion (.obj (dictSet (dictSet (dictSet kvs "version" nvJ)
        "base_version" b) "files" fv)) = b := by
  unfold docBaseVersion docObj
  rw [dictGet_dictSet_ne _ _ _ _ _ (by decide), dictGet_dictSet_self]

theorem docFiles_produced (kvs : List (String × JVal)) (nvJ b : JVal)
    (updated : List JVal) :
    docFiles (.obj (dictSet (dictSet (dictSet kvs "version" nvJ)
        "base_version" b) "files" (.arr updated))) = updated := by
  unfold docFiles docObj
  rw [dictGet_dictSet_self]

theorem new_files_pos_iff (ex : List (JVal × JVal)) (scan : List String) :
    0 < (new_files ex scan).length ↔ ∃ p ∈ scan, keyMemStr ex p = false := by
  unfold new_files
  rw [List.length_pos]
  constructor
  · intro h
    cases hflt : scan.filter (fun p => !keyMemStr ex p) with
    | nil => exact absurd hflt h
    | cons q rest =>
      have hq : q ∈ scan.filter (fun p => !keyMemStr ex p) := by
        rw [hflt]
        exact List.mem_cons_self q rest
      obtain ⟨hqs, hqp⟩ := List.mem_filter.mp hq
      exact ⟨q, hqs, by simpa using hqp⟩
  · rintro ⟨p, hps, hpm⟩
    intro hnil
    have hmem : p ∈ scan.filter (fun p => !keyMemStr ex p) :=
      List.mem_filter.mpr ⟨hps, by simp [hpm]⟩
    rw [hnil] at hmem
    exact absurd hmem (List.not_mem_nil p)

/-! ### Concrete fixtures used by the witnesses -/

/-- A prior manifest document: version 20, files `a.png` (added 19) and
`c.png` (added 20), plus an extra top-level key. -/
def exampleKvs : List (String × JVal) :=
  [("version", .num 20), ("base_version", .num 19),
   ("files", .arr [mkRecord "a.png" (.num 19), mkRecord "c.png" (.num 20)]),
   ("extra", .str "keep")]

/-- The record list of `exampleKvs`. -/
def exampleFl : List JVal :=
  [mkRecord "a.png" (.num 19), mkRecord "c.png" (.num 20)]

/-- The `existing_files` dict built from `exampleKvs`. -/
def exampleEx : List (JVal × JVal) :=
  [(.str "a.png", .num 19), (.str "c.png", .num 20)]

/-- A scan finding `a.png` and `c.png` plus the new `b.png`. -/
def exampleScan : List String := ["c.png", "b.png", "a.png"]

/-- The result of `update_manifest` on `exampleKvs` with `exampleScan`:
one new file, version bumped to 21, `b.png` tagged 21. -/
def exampleRes : UpdateResult :=
  ⟨.obj [("version", .num 21), ("base_version", .num 19),
     ("files", .arr [mkRecord "a.png" (.num 19), mkRecord "b.png" (.num 21),
       mkRecord "c.png" (.num 20)]),
     ("extra", .str "keep")],
   1, 0, .num 21⟩

/-! ### The claims -/

/-- C1: for every path present in both the prior manifest's files and the
current scan, the record emitted for that path by a normal update carries
the same `added` value as in the prior manifest; update never rewrites the
`added` tag of a surviving path. -/
theorem added_tag_stable
    (kvs : List (String × JVal)) (scan : List String) (force : Bool)
    (cv : Int) (fl : List JVal) (ex : List (JVal × JVal)) (res : UpdateResult)
    (p : String) (a : JVal)
    (hv : dictGet kvs "version" (.num BASE_VERSION) = .num cv)
    (hf : dictGet kvs "files" (.arr []) = .arr fl)
    (hex : buildExisting fl [] = some ex)
    (hupd : update_manifest (.obj kvs) scan force = some res)
    (hmem : p ∈ scan)
    (hprev : dictFind ex (.str p) = some a) :
    mkRecord p a ∈ docFiles res.doc ∧
      ∀ r ∈ docFiles res.doc, pySubscript r "path" = some (.str p) →
        pySubscript r "added" = some a := by
  rw [update_manifest_spec kvs scan force cv fl ex hv hf hex] at hupd
  obtain rfl := Option.some.inj hupd
  rw [docFiles_produced, buildUpdatedFiles_eq_map]
  constructor
  · exact List.mem_map.mpr ⟨p, (mem_pySorted scan p).mpr hmem, by
      unfold addedOf
      rw [hprev]⟩
  · intro r hr hpath
    obtain ⟨q, _, rfl⟩ := List.mem_map.mp hr
    rw [pySubscript_mkRecord_path] at hpath
    obtain rfl : q = p := JVal.str.inj (Option.some.inj hpath)
    rw [pySubscript_mkRecord_added]
    unfold addedOf
    rw [hprev]

/-- Witness for C1 at the concrete fixture. -/
theorem added_tag_stable_witness :
    mkRecord "a.png" (.num 19) ∈ docFiles exampleRes.doc ∧
      ∀ r ∈ docFiles exampleRes.doc, pySubscript r "path" = some (.str "a.png") →
        pySubscript r "added" = some (.num 19) :=
  added_tag_stable exampleKvs exampleScan false 20 exampleFl exampleEx exampleRes
    "a.png" (.num 19) rfl rfl rfl rfl (by decide) rfl

/-- C2: the version returned by a normal update satisfies
`new_version >= current_version`, and it is strictly greater iff the scan
contains a path not in the prior manifest or the force flag is set, in
which case `new_version = current_version + 1`. -/
theorem version_monotonic
    (kvs : List (String × JVal)) (scan : List String) (force : Bool)
    (cv : Int) (fl : List JVal) (ex : List (JVal × JVal)) (res : UpdateResult)
    (nv : Int)
    (hv : dictGet kvs "version" (.num BASE_VERSION) = .num cv)
    (hf : dictGet kvs "files" (.arr []) = .arr fl)
    (hex : buildExisting fl [] = some ex)
    (hupd : update_manifest (.obj kvs) scan force = some res)
    (hnv : res.newVersion = .num nv) :
    cv ≤ nv ∧
      (cv < nv ↔ (∃ p ∈ scan, keyMemStr ex p = false) ∨ force = true) ∧
      (((∃ p ∈ scan, keyMemStr ex p = false) ∨ force = true) → nv = cv + 1) := by
  rw [update_manifest_spec kvs scan force cv fl ex hv hf hex] at hupd
  obtain rfl := Option.some.inj hupd
  obtain rfl : newVersionOf cv force ex scan = nv := JVal.num.inj hnv
  unfold newVersionOf
  by_cases hb : (force || decide (0 < (new_files ex scan).length)) = true
  · rw [if_pos hb]
    have hcond : (∃ p ∈ scan, keyMemStr ex p = false) ∨ force = true := by
      rcases (Bool.or_eq_true _ _) ▸ hb with h | h
      · exact Or.inr h
      · exact Or.inl ((new_files_pos_iff ex scan).mp (of_decide_eq_true h))
    exact ⟨by omega, ⟨fun _ => hcond, fun _ => by omega⟩, fun _ => rfl⟩
  · rw [if_neg hb]
    have hcond : ¬ ((∃ p ∈ scan, keyMemStr ex p = false) ∨ force = true) := by
      rintro (h | h)
      · exact hb ((Bool.or_eq_true _ _).symm ▸
          Or.inr (decide_eq_true ((new_files_pos_iff ex scan).mpr h)))
      · exact hb ((Bool.or_eq_true _ _).symm ▸ Or.inl h)
    exact ⟨le_refl cv, ⟨fun hlt => absurd hlt (lt_irrefl cv), fun hc => absurd hc hcond⟩,
      fun hc => absurd hc hcond⟩

/-- Witness for C2 at the concrete fixture. -/
theorem version_monotonic_witness :
    (20 : Int) ≤ 21 ∧
      ((20 : Int) < 21 ↔ (∃ p ∈ exampleScan, keyMemStr exampleEx p = false) ∨ false = true) ∧
      (((∃ p ∈ exampleScan, keyMemStr exampleEx p = false) ∨ false = true) → (21 : Int) = 20 + 1) :=
  version_monotonic exampleKvs exampleScan false 20 exampleFl exampleEx exampleRes 21
    rfl rfl rfl rfl rfl

/-- C3: after a normal update, the files list holds exactly one record per
scanned path, in ascending path order with no duplicates; a pre-existing
path keeps its prior `added`, a new path gets `added = new_version`, and
paths absent from the scan are dropped (every emitted record's path comes
from the scan). -/
theorem files_rebuilt_sorted
    (kvs : List (String × JVal)) (scan : List String) (force : Bool)
    (cv : Int) (fl : List JVal) (ex : List (JVal × JVal)) (res : UpdateResult)
    (hv : dictGet kvs "version" (.num BASE_VERSION) = .num cv)
    (hf : dictGet kvs "files" (.arr []) = .arr fl)
    (hex : buildExisting fl [] = some ex)
    (hscan : scan.Nodup)
    (hupd : update_manifest (.obj kvs) scan force = some res) :
    (filesPaths (docFiles res.doc)).Perm scan ∧
      List.Pairwise (fun a b => strLeB a b = true) (filesPaths (docFiles res.doc)) ∧
      (filesPaths (docFiles res.doc)).Nodup ∧
      (docFiles res.doc).length = scan.length ∧
      (∀ p a, p ∈ scan → dictFind ex (.str p) = some a →
        mkRecord p a ∈ docFiles res.doc) ∧
      (∀ p, p ∈ scan → dictFind ex (.str p) = none →
        mkRecord p res.newVersion ∈ docFiles res.doc) ∧
      (∀ r ∈ docFiles res.doc, ∃ p, p ∈ scan ∧
        pySubscript r "path" = some (.str p)) := by
  rw [update_manifest_spec kvs scan force cv fl ex hv hf hex] at hupd
  obtain rfl := Option.some.inj hupd
  dsimp only
  rw [docFiles_produced, buildUpdatedFiles_eq_map, filesPaths_map_mkRecord]
  refine ⟨pySorted_perm scan, pySorted_pairwise scan, pySorted_nodup scan hscan,
    ?_, ?_, ?_, ?_⟩
  · rw [List.length_map]
    exact (pySorted_perm scan).length_eq
  · intro p a hp hfind
    exact List.mem_map.mpr ⟨p, (mem_pySorted scan p).mpr hp, by
      unfold addedOf
      rw [hfind]⟩
  · intro p hp hfind
    exact List.mem_map.mpr ⟨p, (mem_pySorted scan p).mpr hp, by
      unfold addedOf
      rw [hfind]⟩
  · intro r hr
    obtain ⟨q, hq, rfl⟩ := List.mem_map.mp hr
    exact ⟨q, (mem_pySorted scan q).mp hq, pySubscript_mkRecord_path q _⟩

/-- Witness for C3 at the concrete fixture. -/
theorem files_rebuilt_sorted_witness :
    (filesPaths (docFiles exampleRes.doc)).Perm exampleScan ∧
      List.Pairwise (fun a b => strLeB a b = true) (filesPaths (docFiles exampleRes.doc)) ∧
      (filesPaths (docFiles exampleRes.doc)).Nodup ∧
      (docFiles exampleRes.doc).length = exampleScan.length ∧
      (∀ p a, p ∈ exampleScan → dictFind exampleEx (.str p) = some a →
        mkRecord p a ∈ docFiles exampleRes.doc) ∧
      (∀ p, p ∈ exampleScan → dictFind exampleEx (.str p) = none →
        mkRecord p exampleRes.newVersion ∈ docFiles exampleRes.doc) ∧
      (∀ r ∈ docFiles exampleRes.doc, ∃ p, p ∈ exampleScan ∧
        pySubscript r "path" = some (.str p)) :=
  files_rebuilt_sorted exampleKvs exampleScan false 20 exampleFl exampleEx exampleRes
    rfl rfl rfl (by decide) rfl

/-- C5: for every prior manifest (any disk state) and every scan, reset(n)
produces version = base_version = n and one record per scanned path,
sorted by path, each with added = n, and returns the scanned file count
and n. -/
theorem reset_discards_history
    (disk : Disk) (scan : List String) (force : Bool) (n : Int)
    (hscan : scan.Nodup) :
    main disk scan force (some n) = some ((reset_manifest scan n).1, 1) ∧
      docVersion (reset_manifest scan n).1 = .num n ∧
      docBaseVersion (reset_manifest scan n).1 = .num n ∧
      (reset_manifest scan n).2.1 = scan.length ∧
      (reset_manifest scan n).2.2 = n ∧
      (filesPaths (docFiles (reset_manifest scan n).1)).Perm scan ∧
      List.Pairwise (fun a b => strLeB a b = true)
        (filesPaths (docFiles (reset_manifest scan n).1)) ∧
      (filesPaths (docFiles (reset_manifest scan n).1)).Nodup ∧
      (∀ p ∈ scan, mkRecord p (.num n) ∈ docFiles (reset_manifest scan n).1) ∧
      (∀ r ∈ docFiles (reset_manifest scan n).1,
        pySubscript r "added" = some (.num n) ∧
          ∃ p, p ∈ scan ∧ pySubscript r "path" = some (.str p)) := by
  have hfiles : docFiles (reset_manifest scan n).1
      = (pySorted scan).map (fun p => mkRecord p ((fun _ => JVal.num n) p)) := rfl
  refine ⟨rfl, rfl, rfl, rfl, rfl, ?_, ?_, ?_, ?_, ?_⟩
  · rw [hfiles, filesPaths_map_mkRecord]
    exact pySorted_perm scan
  · rw [hfiles, filesPaths_map_mkRecord]
    exact pySorted_pairwise scan
  · rw [hfiles, filesPaths_map_mkRecord]
    exact pySorted_nodup scan hscan
  · intro p hp
    rw [hfiles]
    exact List.mem_map.mpr ⟨p, (mem_pySorted scan p).mpr hp, rfl⟩
  · intro r hr
    rw [hfiles] at hr
    obtain ⟨q, hq, rfl⟩ := List.mem_map.mp hr
    exact ⟨pySubscript_mkRecord_added q _,
      q, (mem_pySorted scan q).mp hq, pySubscript_mkRecord_path q _⟩

/-- Witness for C5 at the concrete fixture. -/
theorem reset_discards_history_witness :
    main (.parsed (.obj exampleKvs)) exampleScan false (some 25)
        = some ((reset_manifest exampleScan 25).1, 1) ∧
      docVersion (reset_manifest exampleScan 25).1 = .num 25 ∧
      docBaseVersion (reset_manifest exampleScan 25).1 = .num 25 ∧
      (reset_manifest exampleScan 25).2.1 = exampleScan.length ∧
      (reset_manifest exampleScan 25).2.2 = 25 ∧
      (filesPaths (docFiles (reset_manifest exampleScan 25).1)).Perm exampleScan ∧
      List.Pairwise (fun a b => strLeB a b = true)
        (filesPaths (docFiles (reset_manifest exampleScan 25).1)) ∧
      (filesPaths (docFiles (reset_manifest exampleScan 25).1)).Nodup ∧
      (∀ p ∈ exampleScan, mkRecord p (.num 25) ∈ docFiles (reset_manifest exampleScan 25).1) ∧
      (∀ r ∈ docFiles (reset_manifest exampleScan 25).1,
        pySubscript r "added" = some (.num 25) ∧
          ∃ p, p ∈ exampleScan ∧ pySubscript r "path" = some (.str p)) :=
  reset_discards_history (.parsed (.obj exampleKvs)) exampleScan false 25 (by decide)

/-- A prior manifest whose version (5) is below the configured base (19). -/
def lowVersionKvs : List (String × JVal) :=
  [("version", .num 5), ("base_version", .num 5), ("files", .arr [])]

/-- C7 counterexample: updating a prior manifest with version 5 (below the
configured base) and an empty scan persists version = 5 together with
base_version = 19, so `version >= base_version` fails. -/
theorem version_ge_base_counterexample :
    update_manifest (.obj lowVersionKvs) [] false =
      some ⟨.obj [("version", .num 5), ("base_version", .num 19), ("files", .arr [])],
        0, 0, .num 5⟩ ∧
      docVersion (resDocD (update_manifest (.obj lowVersionKvs) [] false)) = .num 5 ∧
      docBaseVersion (resDocD (update_manifest (.obj lowVersionKvs) [] false)) = .num 19 ∧
      ¬ ((19 : Int) ≤ 5) :=
  ⟨rfl, rfl, rfl, by decide⟩

/-- C7 (amended): a manifest persisted by a normal update satisfies
`version >= base_version` provided the loaded version is at least the
configured base version; a reset manifest always has version =
base_version. -/
theorem version_ge_base_amended
    (kvs : List (String × JVal)) (scan : List String) (force : Bool)
    (cv : Int) (fl : List JVal) (ex : List (JVal × JVal)) (res : UpdateResult)
    (bv nv : Int)
    (hv : dictGet kvs "version" (.num BASE_VERSION) = .num cv)
    (hf : dictGet kvs "files" (.arr []) = .arr fl)
    (hex : buildExisting fl [] = some ex)
    (hcv : BASE_VERSION ≤ cv)
    (hupd : update_manifest (.obj kvs) scan force = some res)
    (hversion : docVersion res.doc = .num nv)
    (hbase : docBaseVersion res.doc = .num bv) :
    bv ≤ nv ∧ bv = BASE_VERSION ∧
      (∀ (l : List String) (m : Int),
        docVersion (reset_manifest l m).1 = .num m ∧
        docBaseVersion (reset_manifest l m).1 = .num m) := by
  rw [update_manifest_spec kvs scan force cv fl ex hv hf hex] at hupd
  obtain rfl := Option.some.inj hupd
  dsimp only at hversion hbase
  rw [docVersion_produced] at hversion
  rw [docBaseVersion_produced] at hbase
  obtain rfl := JVal.num.inj hbase
  obtain rfl := JVal.num.inj hversion
  refine ⟨?_, rfl, fun l m => ⟨rfl, rfl⟩⟩
  unfold newVersionOf
  simp only [BASE_VERSION] at hcv ⊢
  by_cases hb : (force || decide (0 < (new_files ex scan).length)) = true
  · rw [if_pos hb]
    omega
  · rw [if_neg hb]
    omega

/-- Witness for C7's amended theorem at the concrete fixture. -/
theorem version_ge_base_amended_witness :
    (19 : Int) ≤ 21 ∧ (19 : Int) = BASE_VERSION ∧
      (∀ (l : List String) (m : Int),
        docVersion (reset_manifest l m).1 = .num m ∧
        docBaseVersion (reset_manifest l m).1 = .num m) :=
  version_ge_base_amended exampleKvs exampleScan false 20 exampleFl exampleEx
    exampleRes 19 21 rfl rfl rfl (by decide) rfl rfl rfl

/-- C8: after a corrupt persisted document, a normal update (force unset)
does not raise; it starts from the fresh default at the configured base
version and, when the scan is non-empty, bumps to base + 1 and tags every
current file base + 1; with an empty scan it persists the file-less
default at the base version. -/
theorem corrupt_recovery (scan : List String) :
    (update_manifest (load_manifest .corrupt) scan false).isSome = true ∧
      (scan = [] →
        update_manifest (load_manifest .corrupt) scan false =
          some ⟨defaultManifest, 0, 0, .num BASE_VERSION⟩) ∧
      (scan ≠ [] →
        resVersionD (update_manifest (load_manifest .corrupt) scan false)
            = .num (BASE_VERSION + 1) ∧
          docVersion (resDocD (update_manifest (load_manifest .corrupt) scan false))
            = .num (BASE_VERSION + 1) ∧
          docBaseVersion (resDocD (update_manifest (load_manifest .corrupt) scan false))
            = .num BASE_VERSION ∧
          docFiles (resDocD (update_manifest (load_manifest .corrupt) scan false)) ≠ [] ∧
          (∀ r ∈ docFiles (resDocD (update_manifest (load_manifest .corrupt) scan false)),
            pySubscript r "added" = some (.num (BASE_VERSION + 1))) ∧
          (∀ p ∈ scan, mkRecord p (.num (BASE_VERSION + 1)) ∈
            docFiles (resDocD (update_manifest (load_manifest .corrupt) scan false))) ∧
          (filesPaths (docFiles (resDocD
            (update_manifest (load_manifest .corrupt) scan false)))).Perm scan ∧
          (∀ r ∈ docFiles (resDocD (update_manifest (load_manifest .corrupt) scan false)),
            ∃ p, p ∈ scan ∧ pySubscript r "path" = some (.str p))) := by
  by_cases hs : scan = []
  · subst hs
    exact ⟨rfl, fun _ => rfl, fun hne => absurd rfl hne⟩
  · have hnew : new_files ([] : List (JVal × JVal)) scan = scan := by
      unfold new_files keyMemStr
      simp
    have hlen : 0 < scan.length := List.length_pos.mpr hs
    have hnv : newVersionOf BASE_VERSION false [] scan = BASE_VERSION + 1 := by
      unfold newVersionOf
      rw [if_pos (by simp [hnew, hlen])]
    have hspec := update_manifest_spec
      [("version", JVal.num BASE_VERSION), ("base_version", JVal.num BASE_VERSION),
        ("files", JVal.arr [])] scan false BASE_VERSION [] [] rfl rfl rfl
    rw [show load_manifest Disk.corrupt = JVal.obj
      [("version", JVal.num BASE_VERSION), ("base_version", JVal.num BASE_VERSION),
        ("files", JVal.arr [])] from rfl, hspec, hnv]
    refine ⟨rfl, fun hc => absurd hc hs, fun _ => ?_⟩
    dsimp only [resVersionD, resDocD]
    rw [docVersion_produced, docBaseVersion_produced, docFiles_produced,
      buildUpdatedFiles_eq_map]
    refine ⟨rfl, rfl, rfl, ?_, ?_, ?_, ?_, ?_⟩
    · intro hc
      rw [List.map_eq_nil_iff] at hc
      have hperm := pySorted_perm scan
      rw [hc] at hperm
      exact hs (List.Perm.eq_nil hperm.symm)
    · intro r hr
      obtain ⟨q, _, rfl⟩ := List.mem_map.mp hr
      rw [pySubscript_mkRecord_added]
      rfl
    · intro p hp
      exact List.mem_map.mpr ⟨p, (mem_pySorted scan p).mpr hp, rfl⟩
    · rw [filesPaths_map_mkRecord]
      exact pySorted_perm scan
    · intro r hr
      obtain ⟨q, hq, rfl⟩ := List.mem_map.mp hr
      exact ⟨q, (mem_pySorted scan q).mp hq, pySubscript_mkRecord_path q _⟩

/-- Witness for C8 at a concrete one-file scan. -/
theorem corrupt_recovery_witness :
    (update_manifest (load_manifest .corrupt) ["x.png"] false).isSome = true ∧
      (["x.png"] = ([] : List String) →
        update_manifest (load_manifest .corrupt) ["x.png"] false =
          some ⟨defaultManifest, 0, 0, .num BASE_VERSION⟩) ∧
      (["x.png"] ≠ ([] : List String) →
        resVersionD (update_manifest (load_manifest .corrupt) ["x.png"] false)
            = .num (BASE_VERSION + 1) ∧
          docVersion (resDocD (update_manifest (load_manifest .corrupt) ["x.png"] false))
            = .num (BASE_VERSION + 1) ∧
          docBaseVersion (resDocD (update_manifest (load_manifest .corrupt) ["x.png"] false))
            = .num BASE_VERSION ∧
          docFiles (resDocD (update_manifest (load_manifest .corrupt) ["x.png"] false)) ≠ [] ∧
          (∀ r ∈ docFiles (resDocD (update_manifest (load_manifest .corrupt) ["x.png"] false)),
            pySubscript r "added" = some (.num (BASE_VERSION + 1))) ∧
          (∀ p ∈ (["x.png"] : List String), mkRecord p (.num (BASE_VERSION + 1)) ∈
            docFiles (resDocD (update_manifest (load_manifest .corrupt) ["x.png"] false))) ∧
          (filesPaths (docFiles (resDocD
            (update_manifest (load_manifest .corrupt) ["x.png"] false)))).Perm ["x.png"] ∧
          (∀ r ∈ docFiles (resDocD (update_manifest (load_manifest .corrupt) ["x.png"] false)),
            ∃ p, p ∈ (["x.png"] : List String) ∧ pySubscript r "path" = some (.str p))) :=
  corrupt_recovery ["x.png"]

/-- C9 counterexample: a persisted document parsing to a JSON array is
returned as-is by load, but the subsequent normal update raises (`.get`
on a list), refuting "this holds for any shape of parsed document". -/
theorem load_as_is_counterexample :
    load_manifest (.parsed (.arr [])) = .arr [] ∧
      update_manifest (load_manifest (.parsed (.arr []))) [] false = none :=
  ⟨rfl, rfl⟩

/-- C9 (amended): load returns every parsed document as-is, and the
subsequent normal update completes without failing when the document is
an object whose (defaulted) version is an integer and whose (defaulted)
files build the existing-files dict; a missing `version` defaults to the
configured base version and a missing `files` to the empty sequence.
A document of any other shape (e.g. a JSON array) makes update raise. -/
theorem load_as_is_amended
    (kvs : List (String × JVal)) (scan : List String) (force : Bool)
    (cv : Int) (fl : List JVal) (ex : List (JVal × JVal))
    (hv : dictGet kvs "version" (.num BASE_VERSION) = .num cv)
    (hf : dictGet kvs "files" (.arr []) = .arr fl)
    (hex : buildExisting fl [] = some ex) :
    (∀ v : JVal, load_manifest (.parsed v) = v) ∧
      (update_manifest (.obj kvs) scan force).isSome = true ∧
      (dictLookup kvs "version" = none → cv = BASE_VERSION) ∧
      (dictLookup kvs "files" = none → fl = []) := by
  refine ⟨fun v => rfl, ?_, ?_, ?_⟩
  · rw [update_manifest_spec kvs scan force cv fl ex hv hf hex]
    rfl
  · intro hnone
    unfold dictGet at hv
    rw [hnone] at hv
    exact (JVal.num.inj hv).symm
  · intro hnone
    unfold dictGet at hf
    rw [hnone] at hf
    exact (JVal.arr.inj hf).symm

/-- Witness for C9's amended theorem at the concrete fixture. -/
theorem load_as_is_amended_witness :
    (∀ v : JVal, load_manifest (.parsed v) = v) ∧
      (update_manifest (.obj exampleKvs) exampleScan false).isSome = true ∧
      (dictLookup exampleKvs "version" = none → (20 : Int) = BASE_VERSION) ∧
      (dictLookup exampleKvs "files" = none → exampleFl = []) :=
  load_as_is_amended exampleKvs exampleScan false 20 exampleFl exampleEx rfl rfl rfl

/-- C10: a normal update preserves every top-level key of the loaded
document other than `version`, `base_version` and `files` unchanged into
the persisted document; reset discards all such extra keys. -/
theorem extra_keys_preserved
    (kvs : List (String × JVal)) (scan : List String) (force : Bool)
    (cv : Int) (fl : List JVal) (ex : List (JVal × JVal)) (res : UpdateResult)
    (k : String)
    (hv : dictGet kvs "version" (.num BASE_VERSION) = .num cv)
    (hf : dictGet kvs "files" (.arr []) = .arr fl)
    (hex : buildExisting fl [] = some ex)
    (hupd : update_manifest (.obj kvs) scan force = some res)
    (hk1 : k ≠ "version") (hk2 : k ≠ "base_version") (hk3 : k ≠ "files") :
    dictLookup (docObj res.doc) k = dictLookup kvs k ∧
      (∀ (l : List String) (m : Int),
        dictLookup (docObj (reset_manifest l m).1) k = none) := by
  rw [update_manifest_spec kvs scan force cv fl ex hv hf hex] at hupd
  obtain rfl := Option.some.inj hupd
  constructor
  · dsimp only [docObj]
    rw [dictLookup_dictSet_ne _ _ _ _ hk3, dictLookup_dictSet_ne _ _ _ _ hk2,
      dictLookup_dictSet_ne _ _ _ _ hk1]
  · intro l m
    dsimp only [reset_manifest, docObj]
    unfold dictLookup
    rw [List.find?_cons_of_neg (p := fun kv : String × JVal => kv.1 == k) _
        (fun hc => hk1 (beq_iff_eq.mp hc).symm),
      List.find?_cons_of_neg (p := fun kv : String × JVal => kv.1 == k) _
        (fun hc => hk2 (beq_iff_eq.mp hc).symm),
      List.find?_cons_of_neg (p := fun kv : String × JVal => kv.1 == k) _
        (fun hc => hk3 (beq_iff_eq.mp hc).symm)]
    rfl

/-- Witness for C10 at the concrete fixture (`extra` key). -/
theorem extra_keys_preserved_witness :
    dictLookup (docObj exampleRes.doc) "extra" = dictLookup exampleKvs "extra" ∧
      (∀ (l : List String) (m : Int),
        dictLookup (docObj (reset_manifest l m).1) "extra" = none) :=
  extra_keys_preserved exampleKvs exampleScan false 20 exampleFl exampleEx exampleRes
    "extra" rfl rfl rfl rfl (by decide) (by decide) (by decide)

/-- C6 counterexample: with a corrupt persisted manifest and an empty
scan, the fresh default manifest is written — a persisted state change —
yet the process exits 0, refuting "exit 0 iff no persisted state change
occurred". -/
theorem exit_code_counterexample :
    main .corrupt [] false none = some (defaultManifest, 0) ∧
      persistedChanged .corrupt defaultManifest :=
  ⟨rfl, trivial⟩

/-- C6 (amended): the exit code reflects the reported diff, not whether
the persisted bytes changed: normal mode exits 0 iff the update reported
zero added, zero removed, and force unset; reset mode always exits 1. -/
theorem exit_code_amended
    (disk : Disk) (scan : List String) (force : Bool) (res : UpdateResult)
    (doc : JVal) (code : Int)
    (hupd : update_manifest (load_manifest disk) scan force = some res)
    (hmain : main disk scan force none = some (doc, code)) :
    doc = res.doc ∧
      (code = 0 ↔ res.newCount = 0 ∧ res.removedCount = 0 ∧ force = false) ∧
      (∀ (n : Int), (main disk scan force (some n)).map Prod.snd = some 1) := by
  unfold main at hmain
  rw [hupd] at hmain
  have h := Option.some.inj hmain
  have hdoc : doc = res.doc := (congrArg Prod.fst h).symm
  have hcode : code =
      if res.newCount = 0 ∧ res.removedCount = 0 ∧ force = false then 0 else 1 :=
    (congrArg Prod.snd h).symm
  refine ⟨hdoc, ?_, fun n => rfl⟩
  by_cases hP : res.newCount = 0 ∧ res.removedCount = 0 ∧ force = false
  · rw [hcode, if_pos hP]
    exact ⟨fun _ => hP, fun _ => rfl⟩
  · rw [hcode, if_neg hP]
    exact ⟨fun hc => absurd hc (by decide), fun hc => absurd hc hP⟩

/-- Witness for C6's amended theorem at the concrete fixture. -/
theorem exit_code_amended_witness :
    exampleRes.doc = exampleRes.doc ∧
      ((1 : Int) = 0 ↔ exampleRes.newCount = 0 ∧ exampleRes.removedCount = 0 ∧
        false = false) ∧
      (∀ (n : Int),
        (main (.parsed (.obj exampleKvs)) exampleScan false (some n)).map Prod.snd
          = some 1) :=
  exit_code_amended (.parsed (.obj exampleKvs)) exampleScan false exampleRes
    exampleRes.doc 1 rfl rfl

/-- Running `update_manifest` on a document it has itself just produced
(with a duplicate-free key set and scan) is a fixed point: no additions,
no removals, no version change, identical document. -/
theorem update_manifest_second (kvs : List (String × JVal)) (scan : List String)
    (nv : Int) (F : String → JVal)
    (hkeys : (kvs.map Prod.fst).Nodup) (hscan : scan.Nodup) :
    update_manifest (.obj (dictSet (dictSet (dictSet kvs "version" (.num nv))
        "base_version" (.num BASE_VERSION)) "files"
        (.arr ((pySorted scan).map (fun p => mkRecord p (F p)))))) scan false
      = some ⟨.obj (dictSet (dictSet (dictSet kvs "version" (.num nv))
          "base_version" (.num BASE_VERSION)) "files"
          (.arr ((pySorted scan).map (fun p => mkRecord p (F p))))), 0, 0, .num nv⟩ := by
  have hsortnd : (pySorted scan).Nodup := pySorted_nodup scan hscan
  set u := (pySorted scan).map (fun p => mkRecord p (F p)) with hu
  set k1 := dictSet (dictSet (dictSet kvs "version" (JVal.num nv))
    "base_version" (JVal.num BASE_VERSION)) "files" (JVal.arr u) with hk1
  have hv1 : dictGet k1 "version" (.num BASE_VERSION) = JVal.num nv := by
    rw [hk1, dictGet_dictSet_ne _ _ _ _ _ (by decide),
      dictGet_dictSet_ne _ _ _ _ _ (by decide), dictGet_dictSet_self]
  have hf1 : dictGet k1 "files" (.arr []) = JVal.arr u := by
    rw [hk1, dictGet_dictSet_self]
  have hex1 : buildExisting u []
      = some ((pySorted scan).map (fun p => (JVal.str p, F p))) := by
    rw [hu, buildExisting_records F (pySorted scan) [] hsortnd (fun p _ => rfl),
      List.nil_append]
  rw [update_manifest_spec k1 scan false nv u _ hv1 hf1 hex1]
  have hF1 : new_files ((pySorted scan).map (fun q => (JVal.str q, F q))) scan = [] := by
    unfold new_files
    rw [List.filter_eq_nil_iff]
    intro p hp
    rw [keyMemStr_map_str]
    have hany : ((pySorted scan).any fun q => q == p) = true :=
      List.any_eq_true.mpr ⟨p, (mem_pySorted scan p).mpr hp, beq_self_eq_true p⟩
    rw [hany]
    decide
  have hF2 : removed_files ((pySorted scan).map (fun q => (JVal.str q, F q))) scan
      = [] := by
    unfold removed_files
    rw [List.filter_eq_nil_iff]
    intro k hk
    rw [List.map_map] at hk
    obtain ⟨q, hq, rfl⟩ := List.mem_map.mp hk
    have hqs : q ∈ scan := (mem_pySorted scan q).mp hq
    have hany : scan.any (fun p => keyEq (JVal.str q) (.str p)) = true :=
      List.any_eq_true.mpr ⟨q, hqs, by
        rw [keyEq_str]
        exact beq_self_eq_true q⟩
    simp only [Function.comp_apply, hany]
    decide
  have hF3 : newVersionOf nv false ((pySorted scan).map (fun q => (JVal.str q, F q)))
      scan = nv := by
    unfold newVersionOf
    rw [hF1]
    rfl
  rw [hF1, hF2, hF3]
  have hF4 : buildUpdatedFiles ((pySorted scan).map (fun q => (JVal.str q, F q)))
      (JVal.num nv) (pySorted scan) = u := by
    rw [buildUpdatedFiles_eq_map, hu]
    apply List.map_congr_left
    intro p hp
    unfold addedOf
    rw [dictFind_map_str F (pySorted scan) p hp]
  rw [hF4]
  have hnod1 : (k1.map Prod.fst).Nodup := by
    rw [hk1]
    exact keys_nodup_dictSet _ _ _
      (keys_nodup_dictSet _ _ _ (keys_nodup_dictSet _ _ _ hkeys))
  have e1 : dictSet k1 "version" (.num nv) = k1 :=
    dictSet_eq_self _ _ _ hnod1 (by
      rw [hk1, dictLookup_dictSet_ne _ _ _ _ (by decide),
        dictLookup_dictSet_ne _ _ _ _ (by decide), dictLookup_dictSet_self])
  rw [e1]
  have e2 : dictSet k1 "base_version" (.num BASE_VERSION) = k1 :=
    dictSet_eq_self _ _ _ hnod1 (by
      rw [hk1, dictLookup_dictSet_ne _ _ _ _ (by decide), dictLookup_dictSet_self])
  rw [e2]
  have e3 : dictSet k1 "files" (.arr u) = k1 :=
    dictSet_eq_self _ _ _ hnod1 (by rw [hk1, dictLookup_dictSet_self])
  rw [e3]
  rfl

/-- C4: running a normal update twice with the same scan result and force
unset is idempotent: the second run produces the identical manifest and
returns zero added, zero removed, and the same version as the first. -/
theorem update_idempotent
    (kvs : List (String × JVal)) (scan : List String)
    (cv : Int) (fl : List JVal) (ex : List (JVal × JVal)) (res : UpdateResult)
    (hkeys : (kvs.map Prod.fst).Nodup)
    (hscan : scan.Nodup)
    (hv : dictGet kvs "version" (.num BASE_VERSION) = .num cv)
    (hf : dictGet kvs "files" (.arr []) = .arr fl)
    (hex : buildExisting fl [] = some ex)
    (hupd : update_manifest (.obj kvs) scan false = some res) :
    update_manifest res.doc scan false = some ⟨res.doc, 0, 0, res.newVersion⟩ := by
  rw [update_manifest_spec kvs scan false cv fl ex hv hf hex] at hupd
  obtain rfl := Option.some.inj hupd
  dsimp only
  rw [buildUpdatedFiles_eq_map]
  exact update_manifest_second kvs scan (newVersionOf cv false ex scan)
    (addedOf ex (.num (newVersionOf cv false ex scan))) hkeys hscan

/-- Witness for C4 at the concrete fixture. -/
theorem update_idempotent_witness :
    update_manifest exampleRes.doc exampleScan false
      = some ⟨exampleRes.doc, 0, 0, exampleRes.newVersion⟩ :=
  update_idempotent exampleKvs exampleScan 20 exampleFl exampleEx exampleRes
    (by decide) (by decide) rfl rfl rfl rfl

end ManifestGen
